import Mathlib

/-!
Verification of the markdown-blogger plugin (`src/main.ts`) against its
specification.  The plugin's logic is shallowly embedded here:

* `convertToJekyllFileName` embeds the method of the same name
  (`src/main.ts:282-292`): it formats the current date as the `YYYY-MM-DD`
  part of `Date.toISOString()`, strips the extension with the semantics of
  Node's `path.parse(fileName).name`, deletes `#` and `?`
  (`.replace(/[#?]/g, '')`), and replaces each maximal whitespace run by a
  single hyphen (`.replace(/\s+/g, '-')`).
* `pushFile` embeds `MarkdownBlogger.pushFile` (`src/main.ts:263-279`) over an
  explicit filesystem model; `isProjectPathValid` embeds the validator
  (`src/main.ts:253-260`); `addPath` / `removePath` embed the settings-tab
  button handlers (`src/main.ts:109-152`).
-/

/-- JavaScript `\s` character class (the regexes in the source use `/\s+/`):
space, `\t`, `\n`, `\v`, `\f`, `\r`, NBSP, and the Unicode space separators
plus BOM, matched by code point. -/
def isJsWhitespace (c : Char) : Bool :=
  (9 ≤ c.toNat && c.toNat ≤ 13) || c.toNat = 32 || c.toNat = 160 ||
  c.toNat = 0x1680 || (0x2000 ≤ c.toNat && c.toNat ≤ 0x200a) ||
  c.toNat = 0x2028 || c.toNat = 0x2029 || c.toNat = 0x202f ||
  c.toNat = 0x205f || c.toNat = 0x3000 || c.toNat = 0xfeff

/-- One pass of `String.replace(/\s+/g, rep)`: `inRun` records whether the
previous character was whitespace, so that a whole run contributes a single
replacement character. -/
def collapseWsAux (rep : Char) : Bool → List Char → List Char
  | _, [] => []
  | inRun, c :: cs =>
    if isJsWhitespace c then
      if inRun then collapseWsAux rep true cs
      else rep :: collapseWsAux rep true cs
    else c :: collapseWsAux rep false cs

/-- `s.replace(/\s+/g, rep)` on a character list: every maximal run of
whitespace characters becomes the single character `rep`. -/
def replaceWsRuns (rep : Char) (cs : List Char) : List Char :=
  collapseWsAux rep false cs

/-- `s.replace(/[#?]/g, '')` from `src/main.ts:288`: delete every `#` and `?`. -/
def removeDisallowed (cs : List Char) : List Char :=
  cs.filter (fun c => !(c == '#' || c == '?'))

/-- Scan the reversed file name for its last `.`; returns the reversed
characters before that dot (the base name), or `none` when the extension is
empty (no dot, or the dot is the first character of the name). -/
def nameOfRev : List Char → Option (List Char)
  | [] => none
  | c :: rest =>
    if c = '.' then (if rest = [] then none else some rest)
    else nameOfRev rest

/-- Node's `path.parse(fileName).name` for a bare file name (Obsidian file
names contain no path separator): everything before the last `.`, except that
a leading-dot-only name (such as `.bashrc`), a dotless name, and the literal
`..` are returned whole. -/
def parseName (fileName : String) : String :=
  if fileName = ".." then fileName
  else
    match nameOfRev fileName.toList.reverse with
    | none => fileName
    | some r => String.mk r.reverse

/-- A calendar date as the UTC fields that `Date.toISOString()` renders;
`new Date().toISOString().split('T')[0]` (`src/main.ts:283`) is modelled as
the zero-padded rendering of these fields. -/
structure UTCDate where
  year  : Nat
  month : Nat
  day   : Nat

/-- Decimal digit character for `n % 10`. -/
def digitChar (n : Nat) : Char := Char.ofNat (48 + n % 10)

/-- Two-digit zero-padded rendering, as `toISOString` uses for month and day. -/
def pad2 (n : Nat) : List Char := [digitChar (n / 10), digitChar n]

/-- Four-digit zero-padded rendering, as `toISOString` uses for the year. -/
def pad4 (n : Nat) : List Char :=
  [digitChar (n / 1000), digitChar (n / 100), digitChar (n / 10), digitChar n]

/-- The `YYYY-MM-DD` prefix of `Date.toISOString()`. -/
def formatISODate (d : UTCDate) : String :=
  String.mk (pad4 d.year ++ '-' :: pad2 d.month ++ '-' :: pad2 d.day)

/-- `convertToJekyllFileName` from `src/main.ts:282-292`. -/
def convertToJekyllFileName (fileName : String) (now : UTCDate) : String :=
  let date := formatISODate now
  let nameWithoutExtension := parseName fileName
  let sanitizedTitle :=
    String.mk (replaceWsRuns '-' (removeDisallowed nameWithoutExtension.toList))
  date ++ "-" ++ sanitizedTitle ++ ".md"

/-- The plugin settings (`MarkdownBloggerSettings`, `src/main.ts:16-20`). -/
structure MarkdownBloggerSettings where
  projectFolders : List String
  showHiddenFolders : Bool
  convertToJekyllFormat : Bool
deriving DecidableEq

/-- `DEFAULT_SETTINGS` from `src/main.ts:23-27`. -/
def DEFAULT_SETTINGS : MarkdownBloggerSettings :=
  { projectFolders := [""], showHiddenFolders := false,
    convertToJekyllFormat := false }

/-- JavaScript `value.trim()`: drop whitespace from both ends. -/
def trimWs (cs : List Char) : List Char :=
  (((cs.dropWhile (isJsWhitespace ·)).reverse.dropWhile (isJsWhitespace ·)).reverse)

/-- The add-path button (`src/main.ts:109-127`): the text field normalizes the
input with `value.trim().replace(/\s+/g, ' ')`; the click handler appends it
when it is non-empty and not already present. -/
def addPath (folders : List String) (value : String) : List String :=
  let newPath := String.mk (replaceWsRuns ' ' (trimWs value.toList))
  if newPath ≠ "" ∧ newPath ∉ folders then folders ++ [newPath] else folders

/-- The delete-path button (`src/main.ts:142-152`): it computes
`projectFolders.indexOf(projectFolders[0])`, which is `0` whenever the list is
non-empty (and `-1` on the empty list, where `projectFolders[0]` is
`undefined`), then splices that index out: the head is removed
unconditionally. -/
def removePath (folders : List String) : List String :=
  match folders with
  | [] => []
  | _ :: rest => rest

/-- Filesystem model for `FileService` (`src/main.ts:30-54`): the readable
contents at each path, plus the error message `fs.writeFileSync` throws at a
path where writing fails (`none` when the write succeeds). -/
structure FSModel where
  contents : String → Option String
  writeError : String → Option String

/-- `FileService.writeFile` (`src/main.ts:39-41`): an unconditional overwrite
of the contents at `p`. -/
def writeFile (fs : FSModel) (p data : String) : FSModel :=
  { fs with contents := fun q => if q = p then some data else fs.contents q }

/-- Node `path.resolve(dir, name)` in the plugin's usage (absolute `dir`, bare
file name): join with a separator. -/
def pathResolve (dir name : String) : String := dir ++ "/" ++ name

/-- The fixed message of the `ErrorModal` opened by `isProjectPathValid`
(`src/main.ts:256`). -/
def invalidPathMessage : String :=
  "프로젝트 폴더가 존재하지 않습니다. 경로를 확인하거나 설정을 업데이트하세요."

/-- `isProjectPathValid` (`src/main.ts:253-260`) over an existence oracle: the
boolean result together with the modal message shown on failure. -/
def isProjectPathValid (pathExists : String → Bool)
    (s : MarkdownBloggerSettings) : Bool × Option String :=
  if pathExists (s.projectFolders.headD "") then (true, none)
  else (false, some invalidPathMessage)

/-- Notice text of `src/main.ts:277`. -/
def pushErrorNotice (msg : String) : String := "푸시 중 오류 발생: " ++ msg

/-- Notice text of `src/main.ts:275`. -/
def pushSuccessNotice (p : String) : String :=
  "파일이 성공적으로 푸시되었습니다: " ++ p

/-- The target path `pushFile` actually writes to (`src/main.ts:269-272`):
when `convertToJekyllFormat` is set the path is recomputed from the converted
name, otherwise the caller's `targetPath` is used as is. -/
def effectiveTargetPath (s : MarkdownBloggerSettings)
    (fileName targetPath : String) (now : UTCDate) : String :=
  if s.convertToJekyllFormat then
    pathResolve (s.projectFolders.headD "") (convertToJekyllFileName fileName now)
  else targetPath

/-- `pushFile` (`src/main.ts:263-279`): read the vault content (first step,
may fail), recompute the target when dated mode is on, write, and emit exactly
one notice; any thrown error is caught and reported as one error notice. -/
def pushFile (s : MarkdownBloggerSettings) (fs : FSModel)
    (readResult : Except String String) (fileName targetPath : String)
    (now : UTCDate) : FSModel × List String :=
  match readResult with
  | Except.error e => (fs, [pushErrorNotice e])
  | Except.ok content =>
    match fs.writeError (effectiveTargetPath s fileName targetPath now) with
    | some e => (fs, [pushErrorNotice e])
    | none =>
      (writeFile fs (effectiveTargetPath s fileName targetPath now) content,
       [pushSuccessNotice (effectiveTargetPath s fileName targetPath now)])

/-- The `push-md` command (`src/main.ts:222-233`): abort with the modal
message when validation fails, otherwise push to
`path.resolve(projectFolders[0], file.name)`. -/
def pushMdCommand (pathExists : String → Bool) (s : MarkdownBloggerSettings)
    (fs : FSModel) (readResult : Except String String) (fileName : String)
    (now : UTCDate) : FSModel × List String :=
  if (isProjectPathValid pathExists s).1 then
    pushFile s fs readResult fileName
      (pathResolve (s.projectFolders.headD "") fileName) now
  else (fs, [invalidPathMessage])

/-- Sample filesystem where every write succeeds and nothing exists yet. -/
def sampleFS : FSModel := ⟨fun _ => none, fun _ => none⟩

/-- Sample filesystem where every write fails with `EACCES`. -/
def failFS : FSModel := ⟨fun _ => none, fun _ => some "EACCES"⟩

/-- Characters of an appended string are the appended character lists. -/
theorem stringToListAppend (s t : String) :
    (s ++ t).toList = s.toList ++ t.toList := by
  cases s; cases t; rfl

/-- A whitespace run is absorbed while the scanner is already inside a run. -/
theorem collapseWsAux_all_ws (rep : Char) (run rest : List Char)
    (hws : ∀ c ∈ run, isJsWhitespace c = true) :
    collapseWsAux rep true (run ++ rest) = collapseWsAux rep true rest := by
  induction run with
  | nil => rfl
  | cons x xs ih =>
    have hx : isJsWhitespace x = true := hws x (List.mem_cons_self _ _)
    simp only [List.cons_append, collapseWsAux, hx, if_true]
    exact ih (fun c hc => hws c (List.mem_cons_of_mem _ hc))

/-- Leaving a run: on input not starting with whitespace, the scanner state is
irrelevant. -/
theorem collapseWsAux_true_eq_false (rep : Char) (rest : List Char)
    (hrest : ∀ c ∈ rest.head?, isJsWhitespace c = false) :
    collapseWsAux rep true rest = collapseWsAux rep false rest := by
  cases rest with
  | nil => rfl
  | cons y ys =>
    have hy : isJsWhitespace y = false := hrest y rfl
    simp [collapseWsAux, hy]

/-- Entering a run from outside emits the replacement character. -/
theorem collapseWsAux_false_ws (rep x : Char) (l : List Char)
    (hx : isJsWhitespace x = true) :
    collapseWsAux rep false (x :: l) = rep :: collapseWsAux rep true l := by
  simp [collapseWsAux, hx]

/-- A non-whitespace character passes through the whitespace collapse. -/
theorem replaceWsRuns_cons_nonws (rep c : Char) (cs : List Char)
    (h : isJsWhitespace c = false) :
    replaceWsRuns rep (c :: cs) = c :: replaceWsRuns rep cs := by
  simp only [replaceWsRuns, collapseWsAux, h]
  simp

/-- A maximal whitespace run becomes exactly one replacement character. -/
theorem replaceWsRuns_ws_run (rep : Char) (run rest : List Char)
    (hne : run ≠ [])
    (hws : ∀ c ∈ run, isJsWhitespace c = true)
    (hrest : ∀ c ∈ rest.head?, isJsWhitespace c = false) :
    replaceWsRuns rep (run ++ rest) = rep :: replaceWsRuns rep rest := by
  cases run with
  | nil => exact absurd rfl hne
  | cons x xs =>
    have hx : isJsWhitespace x = true := hws x (List.mem_cons_self _ _)
    calc replaceWsRuns rep ((x :: xs) ++ rest)
        = collapseWsAux rep false (x :: (xs ++ rest)) := rfl
      _ = rep :: collapseWsAux rep true (xs ++ rest) :=
          collapseWsAux_false_ws rep x _ hx
      _ = rep :: collapseWsAux rep true rest := by
          rw [collapseWsAux_all_ws rep xs rest
            (fun c hc => hws c (List.mem_cons_of_mem _ hc))]
      _ = rep :: collapseWsAux rep false rest := by
          rw [collapseWsAux_true_eq_false rep rest hrest]
      _ = rep :: replaceWsRuns rep rest := rfl

/-- Every character emitted by the collapse is the replacement character or a
non-whitespace character of the input. -/
theorem mem_collapseWsAux (rep : Char) (cs : List Char) (b : Bool) (c : Char)
    (h : c ∈ collapseWsAux rep b cs) :
    c = rep ∨ (c ∈ cs ∧ isJsWhitespace c = false) := by
  induction cs generalizing b with
  | nil => simp [collapseWsAux] at h
  | cons x xs ih =>
    cases hx : isJsWhitespace x with
    | true =>
      cases b with
      | true =>
        simp only [collapseWsAux, hx, if_true] at h
        rcases ih true h with h1 | ⟨h2, h3⟩
        · exact Or.inl h1
        · exact Or.inr ⟨List.mem_cons_of_mem _ h2, h3⟩
      | false =>
        simp only [collapseWsAux, hx, if_true, Bool.false_eq_true, if_false,
          List.mem_cons] at h
        rcases h with rfl | h
        · exact Or.inl rfl
        · rcases ih true h with h1 | ⟨h2, h3⟩
          · exact Or.inl h1
          · exact Or.inr ⟨List.mem_cons_of_mem _ h2, h3⟩
    | false =>
      simp only [collapseWsAux, hx, Bool.false_eq_true, if_false,
        List.mem_cons] at h
      rcases h with rfl | h
      · exact Or.inr ⟨List.mem_cons_self _ _, hx⟩
      · rcases ih false h with h1 | ⟨h2, h3⟩
        · exact Or.inl h1
        · exact Or.inr ⟨List.mem_cons_of_mem _ h2, h3⟩

/-- Character provenance for `replaceWsRuns`. -/
theorem mem_replaceWsRuns (rep : Char) (cs : List Char) (c : Char)
    (h : c ∈ replaceWsRuns rep cs) :
    c = rep ∨ (c ∈ cs ∧ isJsWhitespace c = false) :=
  mem_collapseWsAux rep cs false c h

/-- Decimal digit characters are not whitespace and are not `#` or `?`. -/
theorem digitChar_ok (n : Nat) :
    isJsWhitespace (digitChar n) = false ∧ digitChar n ≠ '#' ∧ digitChar n ≠ '?' := by
  have h10 : n % 10 < 10 := Nat.mod_lt _ (by decide)
  have aux : ∀ k, k < 10 →
      isJsWhitespace (Char.ofNat (48 + k)) = false ∧
      Char.ofNat (48 + k) ≠ '#' ∧ Char.ofNat (48 + k) ≠ '?' := by decide
  exact aux (n % 10) h10

/-- Every character of the `YYYY-MM-DD` date prefix is a digit or a hyphen,
hence neither whitespace nor `#` nor `?`. -/
theorem formatISODate_chars (d : UTCDate) (c : Char)
    (h : c ∈ (formatISODate d).toList) :
    isJsWhitespace c = false ∧ c ≠ '#' ∧ c ≠ '?' := by
  have hd : (formatISODate d).toList =
      [digitChar (d.year / 1000), digitChar (d.year / 100),
       digitChar (d.year / 10), digitChar d.year, '-',
       digitChar (d.month / 10), digitChar d.month, '-',
       digitChar (d.day / 10), digitChar d.day] := rfl
  rw [hd] at h
  simp only [List.mem_cons, List.not_mem_nil, or_false] at h
  rcases h with rfl | rfl | rfl | rfl | rfl | rfl | rfl | rfl | rfl | rfl
  · exact digitChar_ok _
  · exact digitChar_ok _
  · exact digitChar_ok _
  · exact digitChar_ok _
  · exact ⟨by decide, by decide, by decide⟩
  · exact digitChar_ok _
  · exact digitChar_ok _
  · exact ⟨by decide, by decide, by decide⟩
  · exact digitChar_ok _
  · exact digitChar_ok _

/-- Characters surviving the `[#?]` deletion are neither `#` nor `?`. -/
theorem mem_removeDisallowed (cs : List Char) (c : Char)
    (h : c ∈ removeDisallowed cs) : c ≠ '#' ∧ c ≠ '?' := by
  have hp := (List.mem_filter.1 h).2
  simp only [Bool.not_eq_true', Bool.or_eq_false_iff, beq_eq_false_iff_ne] at hp
  exact hp

/-- C1: for every non-empty source file name and every date, the dated
transform returns exactly `{YYYY-MM-DD}-{title}.md`, where the date part is
the zero-padded rendering of the UTC calendar fields of `now` and the title is
the source name with its extension stripped, every `#` and `?` removed, and
every maximal whitespace run replaced by a single hyphen; on 2024-01-05,
`a   b\tc.md` yields `2024-01-05-a-b-c.md` and `what? #tag.md` yields
`2024-01-05-what-tag.md`. -/
theorem C1_dated_transform_pipeline :
    (∀ (fileName : String) (d : UTCDate), fileName ≠ "" →
      convertToJekyllFileName fileName d =
        formatISODate d ++ "-" ++
          String.mk (replaceWsRuns '-'
            (removeDisallowed (parseName fileName).toList)) ++ ".md") ∧
    (∀ (rep c : Char) (cs : List Char), isJsWhitespace c = false →
      replaceWsRuns rep (c :: cs) = c :: replaceWsRuns rep cs) ∧
    (∀ (rep : Char) (run rest : List Char), run ≠ [] →
      (∀ c ∈ run, isJsWhitespace c = true) →
      (∀ c ∈ rest.head?, isJsWhitespace c = false) →
      replaceWsRuns rep (run ++ rest) = rep :: replaceWsRuns rep rest) ∧
    convertToJekyllFileName "a   b\tc.md" ⟨2024, 1, 5⟩ = "2024-01-05-a-b-c.md" ∧
    convertToJekyllFileName "what? #tag.md" ⟨2024, 1, 5⟩ = "2024-01-05-what-tag.md" :=
  ⟨fun _ _ _ => rfl, replaceWsRuns_cons_nonws, replaceWsRuns_ws_run,
   by decide, by decide⟩

/-- Witness for C1 at the concrete input `My Note.md`, 2024-03-01. -/
theorem C1_dated_transform_pipeline_witness :
    convertToJekyllFileName "My Note.md" ⟨2024, 3, 1⟩ =
      formatISODate ⟨2024, 3, 1⟩ ++ "-" ++
        String.mk (replaceWsRuns '-'
          (removeDisallowed (parseName "My Note.md").toList)) ++ ".md" :=
  C1_dated_transform_pipeline.1 "My Note.md" ⟨2024, 3, 1⟩ (by decide)

/-- C2: when `convertToJekyllFormat` is false, the target path the push writes
to is the caller's path, which the command computes as
`path.resolve(projectFolders[0], file.name)` with the source file name
unchanged; the filename transform is never applied. -/
theorem C2_identity_when_not_dated :
    (∀ (s : MarkdownBloggerSettings) (fileName targetPath : String)
       (now : UTCDate),
      s.convertToJekyllFormat = false →
      effectiveTargetPath s fileName targetPath now = targetPath) ∧
    (∀ (s : MarkdownBloggerSettings) (fs : FSModel)
       (fileName content : String) (now : UTCDate),
      s.convertToJekyllFormat = false →
      fs.writeError (pathResolve (s.projectFolders.headD "") fileName) = none →
      pushFile s fs (Except.ok content) fileName
          (pathResolve (s.projectFolders.headD "") fileName) now =
        (writeFile fs (pathResolve (s.projectFolders.headD "") fileName) content,
         [pushSuccessNotice (pathResolve (s.projectFolders.headD "") fileName)])) := by
  constructor
  · intro s fileName targetPath now h
    simp [effectiveTargetPath, h]
  · intro s fs fileName content now h hw
    simp [pushFile, effectiveTargetPath, h] at hw ⊢
    simp [hw]

/-- Witness for C2 with the default settings (dated mode off). -/
theorem C2_identity_witness :
    effectiveTargetPath DEFAULT_SETTINGS "My Note.md" "/out/My Note.md"
      ⟨2024, 3, 1⟩ = "/out/My Note.md" :=
  C2_identity_when_not_dated.1 DEFAULT_SETTINGS "My Note.md" "/out/My Note.md"
    ⟨2024, 3, 1⟩ rfl

/-- C3 counterexample: the delete-path handler removes index 0 unconditionally,
so applying it once to the non-empty default list empties it. -/
theorem C3_remove_empties_default_counterexample :
    DEFAULT_SETTINGS.projectFolders ≠ [] ∧
    removePath DEFAULT_SETTINGS.projectFolders = [] :=
  ⟨by decide, rfl⟩

/-- C3 (amended): the default list is non-empty and add-path preserves
non-emptiness, but remove-path always deletes the entry at index 0, so
removing from a singleton list yields the empty list; non-emptiness is not
preserved by every configuration operation. -/
theorem C3_nonempty_amended :
    DEFAULT_SETTINGS.projectFolders ≠ [] ∧
    (∀ (x : String) (folders : List String) (value : String),
      addPath (x :: folders) value ≠ []) ∧
    (∀ (x y : String) (folders : List String),
      removePath (x :: y :: folders) ≠ []) ∧
    (∀ x : String, removePath [x] = []) := by
  refine ⟨by decide, ?_, ?_, fun x => rfl⟩
  · intro x folders value
    simp only [addPath]
    split
    · simp
    · simp
  · intro x y folders
    simp [removePath]

/-- Witness for C3 (amended): add-path on the default list stays non-empty. -/
theorem C3_nonempty_amended_witness :
    addPath ("" :: []) "/blog" ≠ [] :=
  C3_nonempty_amended.2.1 "" [] "/blog"

/-- Settings whose configured destination does not exist. -/
def missingPathSettings : MarkdownBloggerSettings :=
  { projectFolders := ["/nonexistent"], showHiddenFolders := false,
    convertToJekyllFormat := false }

/-- C4 counterexample: when the configured path `/nonexistent` does not exist,
validation fails with the fixed modal message, and that message does not
contain the offending path. -/
theorem C4_message_lacks_path_counterexample :
    isProjectPathValid (fun _ => false) missingPathSettings =
      (false, some invalidPathMessage) ∧
    ¬ "/nonexistent".toList <:+: invalidPathMessage.toList :=
  ⟨rfl, by decide⟩

/-- C4 (amended): for every non-empty configured list, validation succeeds iff
the path at index 0 exists; otherwise it fails with the fixed invalid-path
modal message (which does not carry the offending path), has no filesystem
effect, and the push command aborts, emitting only that message. -/
theorem C4_validator_amended :
    ∀ (pathExists : String → Bool) (s : MarkdownBloggerSettings),
      s.projectFolders ≠ [] →
      ((isProjectPathValid pathExists s).1 = true ↔
        pathExists (s.projectFolders.headD "") = true) ∧
      (isProjectPathValid pathExists s = (true, none) ∨
       isProjectPathValid pathExists s = (false, some invalidPathMessage)) ∧
      (pathExists (s.projectFolders.headD "") = false →
        ∀ (fs : FSModel) (readResult : Except String String)
          (fileName : String) (now : UTCDate),
          pushMdCommand pathExists s fs readResult fileName now =
            (fs, [invalidPathMessage])) := by
  intro pathExists s _
  cases h : pathExists (s.projectFolders.headD "") with
  | true =>
    have hv : isProjectPathValid pathExists s = (true, none) := by
      unfold isProjectPathValid
      rw [h]
      exact rfl
    refine ⟨by rw [hv], Or.inl hv, ?_⟩
    intro hfalse
    exact absurd hfalse (by decide)
  | false =>
    have hv : isProjectPathValid pathExists s = (false, some invalidPathMessage) := by
      unfold isProjectPathValid
      rw [h]
      exact rfl
    refine ⟨by rw [hv], Or.inr hv, ?_⟩
    intro _ fs readResult fileName now
    unfold pushMdCommand
    rw [hv]
    exact rfl

/-- Witness for C4 (amended): with destination `/nonexistent` absent, the push
command aborts with only the modal message and the filesystem untouched. -/
theorem C4_validator_amended_witness :
    pushMdCommand (fun p => p == "/tmp") missingPathSettings sampleFS
      (Except.ok "hello") "My Note.md" ⟨2024, 3, 1⟩ =
      (sampleFS, [invalidPathMessage]) :=
  (C4_validator_amended (fun p => p == "/tmp") missingPathSettings
    (by decide)).2.2 (by decide) sampleFS (Except.ok "hello") "My Note.md"
    ⟨2024, 3, 1⟩

/-- C5: a failed read leaves the filesystem unchanged and yields exactly the
one error notice; a failed write likewise changes nothing and yields exactly
the one error notice; the notice textually contains the error's message, and
every push outcome emits exactly one notice (no retry, no structured code). -/
theorem C5_push_error_atomic :
    ∀ (s : MarkdownBloggerSettings) (fs : FSModel)
      (fileName targetPath : String) (now : UTCDate) (e : String),
      pushFile s fs (Except.error e) fileName targetPath now =
        (fs, [pushErrorNotice e]) ∧
      (∀ content,
        fs.writeError (effectiveTargetPath s fileName targetPath now) = some e →
        pushFile s fs (Except.ok content) fileName targetPath now =
          (fs, [pushErrorNotice e])) ∧
      (∃ p, pushErrorNotice e = p ++ e) ∧
      (∀ readResult : Except String String,
        (pushFile s fs readResult fileName targetPath now).2.length = 1) := by
  intro s fs fileName targetPath now e
  refine ⟨rfl, ?_, ⟨"푸시 중 오류 발생: ", rfl⟩, ?_⟩
  · intro content hw
    simp [pushFile, hw]
  · intro readResult
    cases readResult with
    | error f => rfl
    | ok content =>
      cases hw : fs.writeError (effectiveTargetPath s fileName targetPath now) with
      | none => simp [pushFile, hw]
      | some f => simp [pushFile, hw]

/-- Witness for C5: a push whose write fails with `EACCES` leaves the
filesystem unchanged and reports the single error notice. -/
theorem C5_push_error_atomic_witness :
    pushFile DEFAULT_SETTINGS failFS (Except.ok "hello") "My Note.md"
      "/out/My Note.md" ⟨2024, 3, 1⟩ = (failFS, [pushErrorNotice "EACCES"]) :=
  (C5_push_error_atomic DEFAULT_SETTINGS failFS "My Note.md" "/out/My Note.md"
    ⟨2024, 3, 1⟩ "EACCES").2.1 "hello" rfl

/-- A push whose write succeeds performs exactly the overwrite at the
effective target and reports the success notice. -/
theorem pushFile_write_ok (s : MarkdownBloggerSettings) (fs : FSModel)
    (content fileName targetPath : String) (now : UTCDate)
    (hw : fs.writeError (effectiveTargetPath s fileName targetPath now) = none) :
    pushFile s fs (Except.ok content) fileName targetPath now =
      (writeFile fs (effectiveTargetPath s fileName targetPath now) content,
       [pushSuccessNotice (effectiveTargetPath s fileName targetPath now)]) := by
  simp [pushFile, hw]

/-- C6: pushing the same document twice to the same resolved target succeeds
both times, and after the second push the contents at the target are exactly
the second push's content: the write is an unconditional overwrite. -/
theorem C6_push_overwrite :
    ∀ (s : MarkdownBloggerSettings) (fs : FSModel)
      (fileName targetPath c1 c2 : String) (now : UTCDate),
      fs.writeError (effectiveTargetPath s fileName targetPath now) = none →
      (pushFile s fs (Except.ok c1) fileName targetPath now).2 =
        [pushSuccessNotice (effectiveTargetPath s fileName targetPath now)] ∧
      (pushFile s (pushFile s fs (Except.ok c1) fileName targetPath now).1
          (Except.ok c2) fileName targetPath now).2 =
        [pushSuccessNotice (effectiveTargetPath s fileName targetPath now)] ∧
      (pushFile s (pushFile s fs (Except.ok c1) fileName targetPath now).1
          (Except.ok c2) fileName targetPath now).1.contents
          (effectiveTargetPath s fileName targetPath now) = some c2 := by
  intro s fs fileName targetPath c1 c2 now hw
  rw [pushFile_write_ok s fs c1 fileName targetPath now hw]
  dsimp only
  rw [pushFile_write_ok s
    (writeFile fs (effectiveTargetPath s fileName targetPath now) c1)
    c2 fileName targetPath now hw]
  dsimp only
  refine ⟨rfl, rfl, ?_⟩
  simp [writeFile]

/-- Witness for C6: two dated-mode-off pushes of `n.md`; the second content
wins. -/
theorem C6_push_overwrite_witness :
    (pushFile DEFAULT_SETTINGS
        (pushFile DEFAULT_SETTINGS sampleFS (Except.ok "v1") "n.md"
          "/out/n.md" ⟨2024, 3, 1⟩).1
        (Except.ok "v2") "n.md" "/out/n.md" ⟨2024, 3, 1⟩).1.contents
      (effectiveTargetPath DEFAULT_SETTINGS "n.md" "/out/n.md" ⟨2024, 3, 1⟩) =
      some "v2" :=
  (C6_push_overwrite DEFAULT_SETTINGS sampleFS "n.md" "/out/n.md" "v1" "v2"
    ⟨2024, 3, 1⟩ rfl).2.2

/-- C7: the dated transform's output always ends in `.md`, whatever the source
extension; in particular for `.markdown`, `.txt` and extension-less inputs. -/
theorem C7_extension_always_md :
    (∀ (fileName : String) (d : UTCDate),
      ∃ p, convertToJekyllFileName fileName d = p ++ ".md") ∧
    convertToJekyllFileName "a.markdown" ⟨2024, 1, 5⟩ = "2024-01-05-a.md" ∧
    convertToJekyllFileName "a.txt" ⟨2024, 1, 5⟩ = "2024-01-05-a.md" ∧
    convertToJekyllFileName "a" ⟨2024, 1, 5⟩ = "2024-01-05-a.md" := by
  refine ⟨?_, by decide, by decide, by decide⟩
  intro fileName d
  refine ⟨formatISODate d ++ "-" ++
    String.mk (replaceWsRuns '-' (removeDisallowed (parseName fileName).toList)), ?_⟩
  simp [convertToJekyllFileName, String.append_assoc]

/-- C8: whenever sanitization empties the title, the dated transform returns
exactly `YYYY-MM-DD-.md`, with no special-casing. -/
theorem C8_empty_title_edge :
    ∀ (fileName : String) (d : UTCDate),
      replaceWsRuns '-' (removeDisallowed (parseName fileName).toList) = [] →
      convertToJekyllFileName fileName d = formatISODate d ++ "-.md" := by
  intro fileName d h
  have h1 : convertToJekyllFileName fileName d =
      formatISODate d ++ "-" ++
        String.mk (replaceWsRuns '-'
          (removeDisallowed (parseName fileName).toList)) ++ ".md" := rfl
  rw [h1, h]
  rfl

/-- Witness for C8 at `#?.md`, whose title sanitizes to the empty string. -/
theorem C8_empty_title_edge_witness :
    convertToJekyllFileName "#?.md" ⟨2024, 1, 5⟩ =
      formatISODate ⟨2024, 1, 5⟩ ++ "-.md" :=
  C8_empty_title_edge "#?.md" ⟨2024, 1, 5⟩ (by decide)

/-- C9: deleting the disallowed characters `#` and `?` is idempotent: applying
the removal twice to any title yields the same result as applying it once. -/
theorem C9_sanitize_idempotent :
    ∀ title : String,
      removeDisallowed (removeDisallowed title.toList) =
        removeDisallowed title.toList := by
  intro title
  induction title.toList with
  | nil => rfl
  | cons c cs ih =>
    simp only [removeDisallowed, List.filter_cons] at ih ⊢
    cases h : (!(c == '#' || c == '?')) with
    | true => simp only [List.filter_cons, h, eq_self_iff_true, if_true, ih]
    | false => simp only [List.filter_cons, h, Bool.false_eq_true, if_false, ih]

/-- C10: every character of the dated transform's output is non-whitespace and
is neither `#` nor `?`. -/
theorem C10_output_char_invariant :
    ∀ (fileName : String) (d : UTCDate) (c : Char),
      c ∈ (convertToJekyllFileName fileName d).toList →
      isJsWhitespace c = false ∧ c ≠ '#' ∧ c ≠ '?' := by
  intro fn d c hc
  have h1 : convertToJekyllFileName fn d =
      formatISODate d ++ ("-" ++
        (String.mk (replaceWsRuns '-'
          (removeDisallowed (parseName fn).toList)) ++ ".md")) := rfl
  rw [h1, stringToListAppend, stringToListAppend, stringToListAppend] at hc
  rcases List.mem_append.1 hc with hdate | hrest
  · exact formatISODate_chars d c hdate
  · rcases List.mem_append.1 hrest with hdash | hrest2
    · have hdash2 : c ∈ ['-'] := hdash
      have hceq : c = '-' := List.mem_singleton.1 hdash2
      subst hceq
      exact ⟨by decide, by decide, by decide⟩
    · rcases List.mem_append.1 hrest2 with hsan | hmd
      · rcases mem_replaceWsRuns '-' _ c hsan with hceq | ⟨hmem, hws⟩
        · subst hceq
          exact ⟨by decide, by decide, by decide⟩
        · have h2 := mem_removeDisallowed _ c hmem
          exact ⟨hws, h2.1, h2.2⟩
      · have hmd2 : c ∈ ['.', 'm', 'd'] := hmd
        simp only [List.mem_cons, List.not_mem_nil, or_false] at hmd2
        rcases hmd2 with hceq | hceq | hceq
        · subst hceq
          exact ⟨by decide, by decide, by decide⟩
        · subst hceq
          exact ⟨by decide, by decide, by decide⟩
        · subst hceq
          exact ⟨by decide, by decide, by decide⟩

/-- Witness for C10: the character `a` of the output for `a.md` satisfies the
invariant. -/
theorem C10_output_char_invariant_witness :
    isJsWhitespace 'a' = false ∧ 'a' ≠ '#' ∧ 'a' ≠ '?' :=
  C10_output_char_invariant "a.md" ⟨2024, 1, 5⟩ 'a' (by decide)
